import Mathlib

/-!
Shallow embedding of the protocol-session core of the vendored FastMCP
framework (source file FastMCP.ts, bundled in src/unnamed/part_000 after the
test file).  Promises are modelled by their settled outcomes: a user function
that may throw is a Lean function returning an `Except` (or an explicit
outcome datatype), and the timeout race is modelled by the settle time of the
execute promise versus the deadline.  Machine details that the claims do not
touch (wire encoding, HTTP, the SDK Server object) are outside the embedding;
each handler below is translated directly from the corresponding
`setupXxxHandlers` body.
-/

namespace FastMCPModel

/-- JSON values, used for tool-call arguments (`request.params.arguments`)
and validated values. -/
inductive Json where
  | null : Json
  | bool (b : Bool) : Json
  | num (n : Int) : Json
  | str (s : String) : Json
  | arr (xs : List Json) : Json
  | obj (fields : List (String × Json)) : Json

/-- Content items (TextContentZodSchema / ImageContentZodSchema /
AudioContentZodSchema): text, image (base64 data + MIME), audio. -/
inductive Content where
  | text (s : String) : Content
  | image (data : String) (mimeType : String) : Content
  | audio (data : String) (mimeType : String) : Content
deriving DecidableEq

/-- The `ContentResult` shape: a content list plus an optional isError flag. -/
structure ContentResult where
  content : List Content
  isError : Option Bool := none
deriving DecidableEq

/-- RPC error codes used by the session (subset of the SDK's `ErrorCode`). -/
inductive ErrorCode where
  | MethodNotFound
  | InvalidParams
  | InvalidRequest
  | InternalError
deriving DecidableEq

/-- How a request handler can fail.
`mcp` is a thrown `McpError` (code, message, optional attached uri data);
`state` is a thrown `UnexpectedStateError`;
`thrown` is any other uncaught exception escaping the handler
(stringified). -/
inductive HandlerError where
  | mcp (code : ErrorCode) (message : String) (uriData : Option String)
  | state (message : String)
  | thrown (message : String)
deriving DecidableEq

/-- Character class of zod's `.base64()` regex body. -/
def isB64Char (c : Char) : Bool :=
  c.isAlphanum || c = '+' || c = '/'

/-- zod `.base64()` check: groups of four base64 characters, with an optional
final group padded by one or two `=`. -/
def isBase64 (s : String) : Bool :=
  let cs := s.data
  let n := cs.length
  let padLen := (cs.reverse.takeWhile (fun c => c = '=')).length
  n % 4 = 0 && padLen ≤ 2 && (cs.take (n - padLen)).all isB64Char

/-- Validity of one content item under `ContentZodSchema` (text is a plain
string; image and audio data must be base64). -/
def contentValid : Content → Bool
  | Content.text _ => true
  | Content.image data _ => isBase64 data
  | Content.audio data _ => isBase64 data

/-- `ContentResultZodSchema.parse`: every content item must be valid. -/
def parseContentResult (r : ContentResult) : Except String ContentResult :=
  if r.content.all contentValid then Except.ok r
  else Except.error "invalid content"

/-- Tool behavioural hints (the source's tool annotation record: advisory
metadata only, carried through the list view verbatim). -/
structure ToolAnnots where
  destructiveHint : Option Bool := none
  idempotentHint : Option Bool := none
  openWorldHint : Option Bool := none
  readOnlyHint : Option Bool := none
  title : Option String := none
deriving DecidableEq

/-- A JSON schema for an object, restricted to the fragment the session
emits: a `type` tag, declared property names, and the
`additionalProperties` flag. Derived schemas from `toJsonSchema` are carried
through this same shape. -/
structure ObjectSchema where
  additionalProperties : Bool
  properties : List String
  typ : String
deriving DecidableEq

/-- JSON-Schema (draft-07) acceptance of an object value by an
`ObjectSchema` of this fragment: the value must be an object, and with
`additionalProperties: false` every supplied key must be a declared
property.  (Nested per-property validation is irrelevant here because the
schema the claims exercise declares no properties.) -/
def ObjectSchema.acceptsObject (s : ObjectSchema) (fields : List (String × Json)) : Bool :=
  decide (s.typ = "object") &&
    fields.all (fun kv => s.properties.contains kv.1 || s.additionalProperties)

/-- A tool-parameters validator (the StandardSchema value): `validate` is
`parameters["~standard"].validate` with the settled promise made explicit
(issues string on failure, parsed value on success), and `jsonSchema` is the
result of `toJsonSchema(parameters)`. -/
structure Validator where
  validate : Option Json → Except String Json
  jsonSchema : ObjectSchema

/-- What a tool's execute function can return (its promise can also
reject, see `ExecOutcome`). -/
inductive ToolReturn where
  | str (s : String) : ToolReturn
  | item (c : Content) : ToolReturn
  | result (r : ContentResult) : ToolReturn

/-- The settled outcome of the execute promise: a return value, a thrown
`UserError` (with its message), or any other thrown value (stringified the
way the template literal in the catch block stringifies it). -/
inductive ExecOutcome where
  | ok (r : ToolReturn) : ExecOutcome
  | throwUser (message : String) : ExecOutcome
  | throwOther (details : String) : ExecOutcome

/-- One invocation of a tool's execute function: the time (ms) at which its
promise settles, and what it settles to. -/
structure ExecBehavior where
  duration : Nat
  outcome : ExecOutcome

/-- A registered tool (registry entry): name, optional description, optional
behavioural hints, optional parameters validator, optional timeout, execute
function.  `execute` receives the validated arguments (`undefined` modelled
as `none`). -/
structure Tool where
  name : String
  description : Option String := none
  annots : Option ToolAnnots := none
  parameters : Option Validator := none
  timeoutMs : Option Nat := none
  execute : Option Json → ExecBehavior

/-- The timeout message built by the setTimeout rejection. -/
def timeoutMessage (t : Nat) : String :=
  "Tool execution timed out after " ++ toString t ++ "ms"

/-- `Promise.race` of the execute promise against the timeout timer: with no
declared timeout the execute outcome is observed; with timeout `t`, if the
timer fires strictly before the execute promise settles the observed outcome
is the rejected `UserError` timeout, and the execute promise's own outcome is
discarded. -/
def raceWithTimeout (timeoutMs : Option Nat) (b : ExecBehavior) : ExecOutcome :=
  match timeoutMs with
  | none => b.outcome
  | some t => if t < b.duration then ExecOutcome.throwUser (timeoutMessage t) else b.outcome

/-- The try-block normalization of the execute result: a plain string becomes
a one-item text content list; a single content item becomes a one-item list;
otherwise the value is parsed against `ContentResultZodSchema`. -/
def normalizeResult : ToolReturn → Except String ContentResult
  | ToolReturn.str s => Except.ok { content := [Content.text s] }
  | ToolReturn.item c => parseContentResult { content := [c] }
  | ToolReturn.result r => parseContentResult r

/-- The try/catch around tool execution: a `UserError` (including the
timeout rejection) becomes a normal response with the error's message as the
single text content and `isError: true`; any other throw (including a
normalization parse failure) becomes the generic
`Error: <details>` flagged response. -/
def callToolExec (tool : Tool) (args : Option Json) : Except HandlerError ContentResult :=
  match raceWithTimeout tool.timeoutMs (tool.execute args) with
  | ExecOutcome.throwUser m =>
      Except.ok { content := [Content.text m], isError := some true }
  | ExecOutcome.throwOther d =>
      Except.ok { content := [Content.text ("Error: " ++ d)], isError := some true }
  | ExecOutcome.ok r =>
      match normalizeResult r with
      | Except.ok cr => Except.ok cr
      | Except.error d =>
          Except.ok { content := [Content.text ("Error: " ++ d)], isError := some true }

/-- Argument validation step of the call-tool handler: `args` starts as
`undefined` and is only replaced by the validated value when the tool
declares parameters; validation issues abort the call with `InvalidParams`
before execution. -/
def validatedArgs (tool : Tool) (arguments : Option Json) :
    Except HandlerError (Option Json) :=
  match tool.parameters with
  | none => Except.ok none
  | some v =>
      match v.validate arguments with
      | Except.error issues =>
          Except.error (HandlerError.mcp ErrorCode.InvalidParams
            ("Invalid " ++ tool.name ++ " parameters: " ++ issues) none)
      | Except.ok value => Except.ok (some value)

/-- The CallToolRequest handler: look the tool up by name
(`MethodNotFound` on miss), validate arguments, then execute under the
timeout race with the try/catch error conversion. -/
def callTool (tools : List Tool) (name : String) (arguments : Option Json) :
    Except HandlerError ContentResult :=
  match tools.find? (fun t => t.name = name) with
  | none =>
      Except.error (HandlerError.mcp ErrorCode.MethodNotFound
        ("Unknown tool: " ++ name) none)
  | some tool =>
      match validatedArgs tool arguments with
      | Except.error e => Except.error e
      | Except.ok args => callToolExec tool args

/-- Sequential dispatch of several call-tool requests on one session.  The
handler closes over the registry and mutates no session state, so each
request is answered independently by `callTool`. -/
def runCalls (tools : List Tool) (reqs : List (String × Option Json)) :
    List (Except HandlerError ContentResult) :=
  reqs.map (fun r => callTool tools r.1 r.2)

/-- The fixed fallback input schema emitted for tools that declare no
parameters: additionalProperties false, no properties, type object. -/
def fallbackInputSchema : ObjectSchema :=
  { additionalProperties := false, properties := [], typ := "object" }

/-- One entry of the ListToolsRequest response. -/
structure ToolListEntry where
  annots : Option ToolAnnots
  description : Option String
  inputSchema : ObjectSchema
  name : String
deriving DecidableEq

/-- The ListToolsRequest handler: every registered tool is reported with its
hints, description, name, and its derived JSON schema (or the fallback
schema when it declares no parameters). -/
def listTools (tools : List Tool) : List ToolListEntry :=
  tools.map (fun t =>
    { annots := t.annots
      description := t.description
      inputSchema :=
        match t.parameters with
        | some p => p.jsonSchema
        | none => fallbackInputSchema
      name := t.name })

/-! ### Server façade session tracking

`FastMCP.start` (SSE / HTTP-stream branches): the `onConnect` callback pushes
the new session onto the private sessions array and emits a connect event;
the `onClose` callback emits a disconnect event.  The stdio branch likewise
only pushes.  Sessions are identified here by a numeric id. -/

/-- A lifecycle callback fired by the listening transport for one client:
its session connects, or its connection closes. -/
inductive FacadeEvent where
  | connect (sid : Nat)
  | close (sid : Nat)
deriving DecidableEq

/-- An event emitted by the façade's event emitter. -/
inductive EmittedEvent where
  | connectEv (sid : Nat)
  | disconnectEv (sid : Nat)
deriving DecidableEq

/-- One façade callback invocation: `onConnect` appends the session to the
active list and emits connect; `onClose` emits disconnect (the sessions
array is not touched there). -/
def facadeStep (sessions : List Nat) : FacadeEvent → List Nat × List EmittedEvent
  | FacadeEvent.connect sid => (sessions ++ [sid], [EmittedEvent.connectEv sid])
  | FacadeEvent.close sid => (sessions, [EmittedEvent.disconnectEv sid])

/-- Running a sequence of connection lifecycle events against the façade,
collecting the final active-sessions list and all emitted events in order. -/
def facadeRun (sessions : List Nat) : List FacadeEvent → List Nat × List EmittedEvent
  | [] => (sessions, [])
  | e :: es =>
      let (s1, out1) := facadeStep sessions e
      let (s2, out2) := facadeRun s1 es
      (s2, out1 ++ out2)

/-! ### Prompts: registration, completion, get -/

/-- A completion result (`CompletionZodSchema` shape). -/
structure Completion where
  values : List String
  total : Option Nat := none
  hasMore : Option Bool := none
deriving DecidableEq

/-- `CompletionZodSchema.parse`: the values array must not exceed 100
items (its strings and the optional fields are otherwise unconstrained). -/
def parseCompletion (c : Completion) : Except String Completion :=
  if c.values.length ≤ 100 then Except.ok c
  else Except.error "completion values exceed 100"

/-- An argument declaration of an input prompt: name, required flag,
optional explicit completer (value to completion, promise settled), optional
static enumeration (the source's enum field, here `enumVals`). -/
structure InputPromptArg where
  name : String
  description : Option String := none
  required : Bool := false
  complete : Option (String → Completion) := none
  enumVals : Option (List String) := none

/-- An input prompt as registered on the server: name, description,
argument declarations (the source's optional array, defaulted to `[]` as the
session does with `?? []`), and the load function.  `load` receives the raw
supplied arguments (possibly absent) and its promise may reject. -/
structure InputPrompt where
  name : String
  description : Option String := none
  arguments : List InputPromptArg := []
  load : Option (List (String × String)) → Except String String

/-- JS dictionary built by successive key assignments: on lookup the last
assignment for the key wins. -/
def dictLookup {β : Type} (entries : List (String × β)) (key : String) : Option β :=
  (entries.reverse.find? (fun e => e.1 = key)).map (fun e => e.2)

/-- The completers dictionary built by `addPrompt`: one entry per argument
that declares an explicit completer. -/
def completersOf (args : List InputPromptArg) : List (String × (String → Completion)) :=
  args.filterMap (fun a => a.complete.map (fun f => (a.name, f)))

/-- The enums dictionary built by `addPrompt`: one entry per argument that
declares an enumeration. -/
def enumsOf (args : List InputPromptArg) : List (String × List String) :=
  args.filterMap (fun a => a.enumVals.map (fun vs => (a.name, vs)))

/-- A prompt as stored in the session after `addPrompt`: the input prompt
plus the synthesized `complete` function (optional in the type, but
`addPrompt` always fills it). -/
structure SessionPrompt where
  name : String
  description : Option String := none
  arguments : List InputPromptArg := []
  load : Option (List (String × String)) → Except String String
  complete : Option (String → String → Completion) := none

/-- `FastMCPSession.addPrompt`'s synthesized completion function for one
prompt: an explicit completer for the argument wins; otherwise an
enumeration is searched with the fuzzy matcher (`search` stands for the
external Fuse library; the match count is the number of results); otherwise
the empty completion is returned.  `search` is kept abstract because the
matcher is an external dependency with unspecified semantics. -/
def promptCompleteFn (search : List String → String → List String)
    (args : List InputPromptArg) (argName value : String) : Completion :=
  match dictLookup (completersOf args) argName with
  | some f => f value
  | none =>
      match dictLookup (enumsOf args) argName with
      | some vs =>
          let found := search vs value
          { values := found, total := some found.length }
      | none => { values := [] }

/-- `FastMCPSession.addPrompt`: wraps an input prompt with the synthesized
completion function and stores it. -/
def wrapPrompt (search : List String → String → List String)
    (p : InputPrompt) : SessionPrompt :=
  { name := p.name
    description := p.description
    arguments := p.arguments
    load := p.load
    complete := some (promptCompleteFn search p.arguments) }

/-- The session's stored prompts: every registered input prompt wrapped by
`addPrompt`. -/
def sessionPrompts (search : List String → String → List String)
    (ps : List InputPrompt) : List SessionPrompt :=
  ps.map (wrapPrompt search)

/-- The CompleteRequest handler branch for a prompt-argument reference
(`ref/prompt`): locate the prompt by name (state error on miss), require its
`complete` function (state error if absent), invoke it and parse the result
against `CompletionZodSchema` (a parse throw escapes the handler). -/
def completePromptRef (prompts : List SessionPrompt)
    (promptName argName value : String) : Except HandlerError Completion :=
  match prompts.find? (fun p => p.name = promptName) with
  | none => Except.error (HandlerError.state "Unknown prompt")
  | some p =>
      match p.complete with
      | none => Except.error (HandlerError.state "Prompt does not support completion")
      | some f =>
          match parseCompletion (f argName value) with
          | Except.ok c => Except.ok c
          | Except.error e => Except.error (HandlerError.thrown e)

/-- Whether the supplied arguments object exists and contains the key
(`args && arg.name in args`). -/
def argHas (args : Option (List (String × String))) (name : String) : Bool :=
  match args with
  | none => false
  | some l => l.any (fun kv => kv.1 = name)

/-- A message of a GetPromptRequest response. -/
structure PromptMessage where
  role : String
  content : Content
deriving DecidableEq

/-- A GetPromptRequest response. -/
structure GetPromptResult where
  description : Option String
  messages : List PromptMessage
deriving DecidableEq

/-- The GetPromptRequest handler: find the prompt by name (`MethodNotFound`
on miss); throw `InvalidRequest` at the first declared required argument
missing from the supplied arguments; invoke `load` (a rejection becomes
`InternalError`); wrap the produced string as a single user-role text
message. -/
def getPrompt (prompts : List InputPrompt) (name : String)
    (args : Option (List (String × String))) : Except HandlerError GetPromptResult :=
  match prompts.find? (fun p => p.name = name) with
  | none =>
      Except.error (HandlerError.mcp ErrorCode.MethodNotFound
        ("Unknown prompt: " ++ name) none)
  | some p =>
      match p.arguments.find? (fun a => a.required && !(argHas args a.name)) with
      | some a =>
          Except.error (HandlerError.mcp ErrorCode.InvalidRequest
            ("Missing required argument: " ++ a.name) none)
      | none =>
          match p.load args with
          | Except.error e =>
              Except.error (HandlerError.mcp ErrorCode.InternalError
                ("Error loading prompt: " ++ toString e) none)
          | Except.ok s =>
              Except.ok { description := p.description
                          messages := [{ role := "user", content := Content.text s }] }

/-! ### Resources and resource templates -/

/-- One payload produced by a resource loader.  The declared type only holds
a `text` or a `blob` field, but the handler spreads the runtime object over
the defaults, so extra `uri` / `name` / `mimeType` fields present at runtime
override the resource's own; they are modelled as optional fields. -/
structure ResourceResult where
  text : Option String := none
  blob : Option String := none
  uri : Option String := none
  name : Option String := none
  mimeType : Option String := none
deriving DecidableEq

/-- A resource loader's settled outcome: one payload or a list of payloads
(or a rejection). -/
inductive ResourceLoad where
  | one (r : ResourceResult)
  | many (rs : List ResourceResult)

/-- A direct resource registry entry.  `load` is the settled outcome of the
loader's promise. -/
structure Resource where
  name : String
  uri : String
  description : Option String := none
  mimeType : Option String := none
  load : Except String ResourceLoad

/-- A resource template registry entry: keyed by a URI pattern; its loader
receives the placeholder values extracted from the requested URI. -/
structure ResourceTemplate where
  name : String
  uriTemplate : String
  description : Option String := none
  mimeType : Option String := none
  load : List (String × String) → Except String ResourceResult

/-- One entry of a ReadResourceRequest response's contents list. -/
structure ResourceContents where
  uri : String
  name : String
  mimeType : Option String
  text : Option String
  blob : Option String
deriving DecidableEq

/-- A ReadResourceRequest response. -/
structure ReadResult where
  contents : List ResourceContents
deriving DecidableEq

/-- The contents entry built for a direct resource:
`{mimeType: resource.mimeType, name: resource.name, uri: resource.uri,
...result}` — the loader entry's own fields, when present, override the
resource's. -/
def mkDirectEntry (res : Resource) (r : ResourceResult) : ResourceContents :=
  { uri := r.uri.getD res.uri
    name := r.name.getD res.name
    mimeType := r.mimeType.orElse (fun _ => res.mimeType)
    text := r.text
    blob := r.blob }

/-- The contents entry built for a template read:
`{mimeType: resourceTemplate.mimeType, name: resourceTemplate.name,
uri: uriTemplate.fill(match), ...result}`. -/
def mkTemplateEntry (t : ResourceTemplate) (filledUri : String)
    (r : ResourceResult) : ResourceContents :=
  { uri := r.uri.getD filledUri
    name := r.name.getD t.name
    mimeType := r.mimeType.orElse (fun _ => t.mimeType)
    text := r.text
    blob := r.blob }

/-- The external uri-templates library as the session uses it: `fromUri`
matches a URI against a pattern, yielding the placeholder binding on
success, and `fill` substitutes a binding back into the pattern. -/
structure UriTemplateEngine where
  fromUri : String → String → Option (List (String × String))
  fill : String → List (String × String) → String

/-- The template read path (the for-loop over registered templates): the
first template whose pattern matches the requested URI wins; its loader is
invoked with the extracted placeholder values (a loader rejection escapes
the handler uncaught); if no template matches, the request fails with
`MethodNotFound`. -/
def readViaTemplates (engine : UriTemplateEngine) :
    List ResourceTemplate → String → Except HandlerError ReadResult
  | [], uri =>
      Except.error (HandlerError.mcp ErrorCode.MethodNotFound
        ("Unknown resource: " ++ uri) none)
  | t :: ts, uri =>
      match engine.fromUri t.uriTemplate uri with
      | none => readViaTemplates engine ts uri
      | some m =>
          match t.load m with
          | Except.ok r =>
              Except.ok { contents := [mkTemplateEntry t (engine.fill t.uriTemplate m) r] }
          | Except.error e => Except.error (HandlerError.thrown e)

/-- The first registered template matching the URI, with its extracted
placeholder binding. -/
def firstTemplateMatch (engine : UriTemplateEngine)
    (templates : List ResourceTemplate) (uri : String) :
    Option (ResourceTemplate × List (String × String)) :=
  templates.findSome? (fun t => (engine.fromUri t.uriTemplate uri).map (fun m => (t, m)))

/-- The response produced for the winning template: its loader applied to
the extracted binding, the single entry carrying the refilled URI. -/
def templateLoadResponse (engine : UriTemplateEngine) (t : ResourceTemplate)
    (m : List (String × String)) : Except HandlerError ReadResult :=
  match t.load m with
  | Except.ok r =>
      Except.ok { contents := [mkTemplateEntry t (engine.fill t.uriTemplate m) r] }
  | Except.error e => Except.error (HandlerError.thrown e)

/-- The ReadResourceRequest handler: exact URI match against direct
resources first; on a hit the loader runs under try/catch (a rejection
becomes `InternalError` with the URI attached) and its one-or-many result is
mapped to the contents list; on a miss the template path is tried. -/
def readResource (engine : UriTemplateEngine) (resources : List Resource)
    (templates : List ResourceTemplate) (uri : String) :
    Except HandlerError ReadResult :=
  match resources.find? (fun r => r.uri = uri) with
  | none => readViaTemplates engine templates uri
  | some res =>
      match res.load with
      | Except.error e =>
          Except.error (HandlerError.mcp ErrorCode.InternalError
            ("Error reading resource: " ++ e) (some res.uri))
      | Except.ok (ResourceLoad.one r) =>
          Except.ok { contents := [mkDirectEntry res r] }
      | Except.ok (ResourceLoad.many rs) =>
          Except.ok { contents := rs.map (mkDirectEntry res) }

/-! A concrete URI-template engine for simple `{name}` patterns, used to
instantiate the abstract engine on the spec's own example. -/

/-- A parsed token of a simple URI template: a literal character or a
placeholder. -/
inductive TplToken where
  | lit (c : Char)
  | var (v : String)

/-- Fuel-indexed template parser (each step consumes at least one input
character, so any fuel above the input length is enough). -/
def parseTplFuel : Nat → List Char → List TplToken
  | 0, _ => []
  | _ + 1, [] => []
  | fuel + 1, c :: rest =>
      if c = '{' then
        let v := rest.takeWhile (fun x => x ≠ '}')
        let rest2 := (rest.dropWhile (fun x => x ≠ '}')).drop 1
        TplToken.var (String.mk v) :: parseTplFuel fuel rest2
      else
        TplToken.lit c :: parseTplFuel fuel rest

/-- Modelled from the spec: the external uri-templates library's pattern
parser, restricted to simple level-1 `{name}` placeholders (the only form
the spec's examples use): a template is literal characters interleaved with
braced placeholder names. -/
def parseTpl (cs : List Char) : List TplToken :=
  parseTplFuel (cs.length + 1) cs

/-- Fuel-indexed token matching (each step consumes one token, so any fuel
above the token count is enough). -/
def matchTokensFuel : Nat → List TplToken → List Char → Option (List (String × String))
  | 0, _, _ => none
  | _ + 1, [], [] => some []
  | _ + 1, [], _ :: _ => none
  | _ + 1, TplToken.lit _ :: _, [] => none
  | fuel + 1, TplToken.lit c :: ts, x :: xs =>
      if x = c then matchTokensFuel fuel ts xs else none
  | fuel + 1, TplToken.var v :: ts, cs =>
      (List.range (cs.length + 1)).findSome? (fun k =>
        (matchTokensFuel fuel ts (cs.drop k)).map (fun b => (v, String.mk (cs.take k)) :: b))

/-- Modelled from the spec: non-greedy matching of parsed template tokens
against the URI's characters; a placeholder captures the shortest span that
lets the rest of the template match. -/
def matchTokens (ts : List TplToken) (cs : List Char) : Option (List (String × String)) :=
  matchTokensFuel (ts.length + 1) ts cs

/-- Modelled from the spec: filling a simple template with a binding (the
library's `fill`), substituting each placeholder by its bound value. -/
def fillTokens (binding : List (String × String)) : List TplToken → String
  | [] => ""
  | TplToken.lit c :: ts => String.mk [c] ++ fillTokens binding ts
  | TplToken.var v :: ts =>
      (dictLookup binding.reverse v).getD "" ++ fillTokens binding ts

/-- The concrete engine for simple `{name}` templates. -/
def simpleUriTemplates : UriTemplateEngine :=
  { fromUri := fun tpl uri => matchTokens (parseTpl tpl.data) uri.data
    fill := fun tpl binding => fillTokens binding (parseTpl tpl.data) }

/-! ### Session connect: bounded capability polling -/

/-- The handshake attempt budget (`while (attempt++ < 10)`). -/
def attemptBudget : Nat := 10

/-- The backoff between handshake attempts in ms (`await delay(100)`). -/
def attemptDelayMs : Nat := 100

/-- The capability polling loop of `FastMCPSession.connect`.  `capAt k` is
what `getClientCapabilities()` returns on the (k+1)-th call.  Returns the
capabilities obtained (if any), the number of calls made, and the number of
100ms delays awaited (one after every unsuccessful call). -/
def connectPollAux {α : Type} (capAt : Nat → Option α) :
    Nat → Nat → Option α × Nat × Nat
  | k, 0 => (none, k, k)
  | k, b + 1 =>
      match capAt k with
      | some c => (some c, k + 1, k)
      | none => connectPollAux capAt (k + 1) b

/-- The polling loop started with the full attempt budget. -/
def connectPoll {α : Type} (capAt : Nat → Option α) : Option α × Nat × Nat :=
  connectPollAux capAt 0 attemptBudget

/-- The observable outcome of `connect` relevant to the handshake: the
negotiated capabilities (still unset when polling exhausted), the polling
effort spent, and whether the non-fatal "could not infer client
capabilities" diagnostic was printed. -/
structure ConnectOutcome (α : Type) where
  clientCapabilities : Option α
  attempts : Nat
  delays : Nat
  warned : Bool
deriving DecidableEq

/-- `FastMCPSession.connect`: an already-bound transport is a fatal state
error; otherwise the transport is bound, capabilities are polled with the
bounded budget, and the method completes normally whether or not
capabilities were obtained — exhaustion only prints a warning.  (The
subsequent roots fetch and ping-timer setup never fail `connect`: their
errors are caught and logged, and they are skipped entirely when
capabilities are absent.) -/
def connect {α : Type} (alreadyConnected : Bool) (capAt : Nat → Option α) :
    Except String (ConnectOutcome α) :=
  if alreadyConnected then Except.error "Server is already connected"
  else
    let r := connectPoll capAt
    Except.ok { clientCapabilities := r.1
                attempts := r.2.1
                delays := r.2.2
                warned := r.1.isNone }

/-! ### Concrete registry entries used to evaluate the handlers -/

/-- A tool whose execute promise rejects with a `UserError`. -/
def userErrorTool : Tool :=
  { name := "fail-user"
    execute := fun _ => { duration := 0, outcome := ExecOutcome.throwUser "bad input" } }

/-- A tool whose execute promise rejects with a generic exception. -/
def genericErrorTool : Tool :=
  { name := "fail-generic"
    execute := fun _ => { duration := 0, outcome := ExecOutcome.throwOther "boom" } }

/-- A tool with a 5ms timeout whose execute promise settles after 10ms. -/
def slowTool : Tool :=
  { name := "slow"
    timeoutMs := some 5
    execute := fun _ => { duration := 10, outcome := ExecOutcome.ok (ToolReturn.str "done") } }

/-- A schema-less tool whose result reveals which arguments it received. -/
def echoTool : Tool :=
  { name := "echo"
    execute := fun a =>
      { duration := 0
        outcome := ExecOutcome.ok (ToolReturn.str
          (match a with
           | none => "no args"
           | some _ => "got args")) } }

/-- A schema-less tool with a description, for the list view. -/
def pingTool : Tool :=
  { name := "ping"
    description := some "pings"
    execute := fun _ => { duration := 0, outcome := ExecOutcome.ok (ToolReturn.str "pong") } }

/-- A plain substring matcher instantiating the abstract fuzzy search of the
enumeration fallback (the spec leaves the matcher's semantics open). -/
def substrSearch (vs : List String) (q : String) : List String :=
  vs.filter (fun v => v.data.tails.any (fun t => q.data.isPrefixOf t))

/-- A prompt whose only argument declares neither a completer nor an
enumeration. -/
def plainArgPrompt : InputPrompt :=
  { name := "p"
    arguments := [{ name := "a", required := true }]
    load := fun _ => Except.ok "hello" }

/-- A prompt whose `color` argument declares an enumeration but no
completer. -/
def enumArgPrompt : InputPrompt :=
  { name := "q"
    arguments := [{ name := "color", enumVals := some ["red", "green", "blue"] }]
    load := fun _ => Except.ok "hi" }

/-- The session prompt store for the two sample prompts. -/
def samplePrompts : List SessionPrompt :=
  sessionPrompts substrSearch [plainArgPrompt, enumArgPrompt]

/-- The round-trip prompt of the spec: required argument `changes`, load
echoing the supplied value. -/
def commitPrompt : InputPrompt :=
  { name := "git-commit"
    description := some "Generate a commit message"
    arguments := [{ name := "changes", required := true }]
    load := fun args => Except.ok (((args.getD []).lookup "changes").getD "") }

/-- The log-file resource template of the spec's example; its loader echoes
the extracted `name` placeholder as the text payload. -/
def logTemplate : ResourceTemplate :=
  { name := "logs"
    uriTemplate := "file:///logs/{name}.log"
    load := fun args => Except.ok { text := (args.lookup "name") } }

/-- The direct resource of the spec's example, whose loader yields two text
payloads. -/
def multiResource : Resource :=
  { name := "x"
    uri := "file:///x"
    load := Except.ok (ResourceLoad.many [{ text := some "a" }, { text := some "b" }]) }

/-! ## Theorems -/

/-- C1: for every registered tool and every call-tool request that passes
argument validation, if the execute invocation's observed outcome is a
throw, the session answers with a normal (non-RPC-error) call-tool response
whose isError flag is true: a `UserError`'s message becomes the single text
content verbatim, and any other exception becomes the generic
`Error: <details>` text.  The handler returns normally (`Except.ok`), so no
protocol-level RPC error is produced and nothing tears the session down. -/
theorem callTool_execution_throw_becomes_flagged_response
    (tools : List Tool) (name : String) (arguments : Option Json)
    (tool : Tool) (args : Option Json)
    (hfind : tools.find? (fun t => t.name = name) = some tool)
    (hval : validatedArgs tool arguments = Except.ok args) :
    (∀ m, raceWithTimeout tool.timeoutMs (tool.execute args) = ExecOutcome.throwUser m →
       callTool tools name arguments =
         Except.ok { content := [Content.text m], isError := some true }) ∧
    (∀ d, raceWithTimeout tool.timeoutMs (tool.execute args) = ExecOutcome.throwOther d →
       callTool tools name arguments =
         Except.ok { content := [Content.text ("Error: " ++ d)], isError := some true }) := by
  constructor
  · intro m h
    simp [callTool, hfind, hval, callToolExec, h]
  · intro d h
    simp [callTool, hfind, hval, callToolExec, h]

/-- C1 witness: the user-facing throw of `userErrorTool` and the generic
throw of `genericErrorTool` both come back as flagged content responses. -/
theorem callTool_execution_throw_becomes_flagged_response_witness :
    callTool [userErrorTool, genericErrorTool] "fail-user" none =
      Except.ok { content := [Content.text "bad input"], isError := some true } ∧
    callTool [userErrorTool, genericErrorTool] "fail-generic" none =
      Except.ok { content := [Content.text ("Error: " ++ "boom")], isError := some true } := by
  have h1 := callTool_execution_throw_becomes_flagged_response
    [userErrorTool, genericErrorTool] "fail-user" none userErrorTool none rfl rfl
  have h2 := callTool_execution_throw_becomes_flagged_response
    [userErrorTool, genericErrorTool] "fail-generic" none genericErrorTool none rfl rfl
  exact ⟨h1.1 "bad input" rfl, h2.2 "boom" rfl⟩

/-- C2: for a tool declaring `timeoutMs = T` whose execute promise settles
only after the deadline, the client receives a flagged content response
whose text is exactly the timeout message; the execute promise's own
eventual outcome is discarded (the raced result is the timeout rejection no
matter what the execute outcome is); and subsequent calls on the session are
answered as if the timed-out call had never happened. -/
theorem callTool_timeout_short_circuits
    (tools : List Tool) (name : String) (arguments : Option Json)
    (tool : Tool) (args : Option Json) (T : Nat)
    (hfind : tools.find? (fun t => t.name = name) = some tool)
    (hval : validatedArgs tool arguments = Except.ok args)
    (htime : tool.timeoutMs = some T)
    (hdur : T < (tool.execute args).duration) :
    callTool tools name arguments =
      Except.ok { content := [Content.text (timeoutMessage T)], isError := some true } ∧
    (∀ o : ExecOutcome,
       raceWithTimeout tool.timeoutMs
         { duration := (tool.execute args).duration, outcome := o } =
         ExecOutcome.throwUser (timeoutMessage T)) ∧
    (∀ reqs : List (String × Option Json),
       runCalls tools ((name, arguments) :: reqs) =
         Except.ok { content := [Content.text (timeoutMessage T)], isError := some true } ::
           reqs.map (fun r => callTool tools r.1 r.2)) := by
  have hrace : raceWithTimeout tool.timeoutMs (tool.execute args) =
      ExecOutcome.throwUser (timeoutMessage T) := by
    simp [raceWithTimeout, htime, hdur]
  refine ⟨?_, ?_, ?_⟩
  · simp [callTool, hfind, hval, callToolExec, hrace]
  · intro o
    simp [raceWithTimeout, htime, hdur]
  · intro reqs
    simp [runCalls, callTool, hfind, hval, callToolExec, hrace]

/-- C2 witness: `slowTool` (5ms timeout, 10ms execution) answers with the
timeout text and a later call still gets its normal answer. -/
theorem callTool_timeout_short_circuits_witness :
    callTool [slowTool, pingTool] "slow" none =
      Except.ok { content := [Content.text "Tool execution timed out after 5ms"],
                  isError := some true } ∧
    runCalls [slowTool, pingTool] [("slow", none), ("ping", none)] =
      [Except.ok { content := [Content.text "Tool execution timed out after 5ms"],
                   isError := some true },
       Except.ok { content := [Content.text "pong"], isError := none }] := by
  have h := callTool_timeout_short_circuits [slowTool, pingTool] "slow" none
    slowTool none 5 rfl rfl rfl (by decide)
  constructor
  · exact h.1
  · have h2 := h.2.2 [("ping", none)]
    rw [h2]
    rfl

/-- C10: for a tool registered without a parameters schema, call-tool never
validates and always hands `undefined` to the execute function: the
response is exactly the handling of `execute none`, any two supplied
argument payloads produce identical responses, and the validation step
degenerates to `ok none` for every payload. -/
theorem callTool_no_schema_drops_arguments
    (tools : List Tool) (name : String) (tool : Tool)
    (hfind : tools.find? (fun t => t.name = name) = some tool)
    (hnp : tool.parameters = none) :
    (∀ arguments, callTool tools name arguments = callToolExec tool none) ∧
    (∀ a1 a2, callTool tools name a1 = callTool tools name a2) ∧
    (∀ arguments, validatedArgs tool arguments = Except.ok none) := by
  have hv : ∀ arguments, validatedArgs tool arguments = Except.ok none := by
    intro arguments
    simp [validatedArgs, hnp]
  refine ⟨?_, ?_, hv⟩
  · intro arguments
    simp [callTool, hfind, hv]
  · intro a1 a2
    simp [callTool, hfind, hv]

/-- C10 witness: `echoTool` reports receiving no arguments even when the
request supplies an object payload. -/
theorem callTool_no_schema_drops_arguments_witness :
    callTool [echoTool] "echo" (some (Json.obj [("x", Json.num 1)])) =
      Except.ok { content := [Content.text "no args"], isError := none } ∧
    callTool [echoTool] "echo" (some (Json.obj [("x", Json.num 1)])) =
      callTool [echoTool] "echo" none := by
  have h := callTool_no_schema_drops_arguments [echoTool] "echo" echoTool rfl rfl
  constructor
  · rw [h.1 (some (Json.obj [("x", Json.num 1)]))]
    rfl
  · exact h.2.1 (some (Json.obj [("x", Json.num 1)])) none

/-- The active-sessions list after a run is the initial list extended by
every connected session id, in order: nothing is ever removed. -/
theorem facadeRun_sessions_eq (es : List FacadeEvent) (init : List Nat) :
    (facadeRun init es).1 = init ++ es.filterMap (fun e =>
      match e with
      | FacadeEvent.connect sid => some sid
      | FacadeEvent.close _ => none) := by
  induction es generalizing init with
  | nil => simp [facadeRun]
  | cons e es ih =>
      cases e with
      | connect sid => simp [facadeRun, facadeStep, ih]
      | close sid => simp [facadeRun, facadeStep, ih]

/-- C3 counterexample: connect A (= 0), close A, connect B (= 1) leaves the
active-sessions list at `[A, B]`, not the claimed `[B]`; the session is
never removed on closure. -/
theorem facade_disconnect_does_not_remove_counterexample :
    (facadeRun [] [FacadeEvent.connect 0, FacadeEvent.close 0,
      FacadeEvent.connect 1]).1 ≠ [1] := by
  decide

/-- C3 (amended): connecting appends the session to the active list and
emits connect; a connection's closure emits disconnect but leaves the list
untouched, so the list only ever grows; in the A-disconnects-then-B-connects
scenario the list goes `[A]`, `[A]`, `[A, B]` with connect/disconnect events
emitted in order. -/
theorem facade_sessions_append_only (init : List Nat) (es : List FacadeEvent) :
    (∀ sid, facadeStep init (FacadeEvent.connect sid) =
       (init ++ [sid], [EmittedEvent.connectEv sid])) ∧
    (∀ sid, facadeStep init (FacadeEvent.close sid) =
       (init, [EmittedEvent.disconnectEv sid])) ∧
    (facadeRun init es).1 = init ++ es.filterMap (fun e =>
      match e with
      | FacadeEvent.connect sid => some sid
      | FacadeEvent.close _ => none) ∧
    facadeRun [] [FacadeEvent.connect 0, FacadeEvent.close 0, FacadeEvent.connect 1] =
      ([0, 1], [EmittedEvent.connectEv 0, EmittedEvent.disconnectEv 0,
                EmittedEvent.connectEv 1]) := by
  refine ⟨fun sid => rfl, fun sid => rfl, facadeRun_sessions_eq es init, by decide⟩

/-- C4 counterexample: a tool without a schema is listed with the fixed
`{type: "object", properties: {}, additionalProperties: false}` schema, and
that schema is not permissive: it rejects the supplied object
`{"a": "b"}`. -/
theorem listTools_fallback_not_permissive_counterexample :
    listTools [pingTool] =
      [{ annots := none, description := some "pings",
         inputSchema := fallbackInputSchema, name := "ping" }] ∧
    fallbackInputSchema.acceptsObject [("a", Json.str "b")] = false := by
  exact ⟨rfl, rfl⟩

/-- C4 (amended): every registered tool is listed with its name,
description and behavioural hints; a tool with a schema carries the
JSON-Schema derived from it, and a tool without one carries the fixed
empty-object schema with `additionalProperties: false`, which accepts
exactly the objects with no properties (not any supplied object). -/
theorem listTools_reports_schemas (tools : List Tool) (t : Tool)
    (h : t ∈ tools) :
    ({ annots := t.annots
       description := t.description
       inputSchema :=
         match t.parameters with
         | some p => p.jsonSchema
         | none => fallbackInputSchema
       name := t.name } : ToolListEntry) ∈ listTools tools ∧
    (∀ fields, fallbackInputSchema.acceptsObject fields = true ↔ fields = []) := by
  constructor
  · exact List.mem_map_of_mem _ h
  · intro fields
    cases fields with
    | nil => simp [ObjectSchema.acceptsObject, fallbackInputSchema]
    | cons kv rest => simp [ObjectSchema.acceptsObject, fallbackInputSchema]

/-- C4 witness: the schema-less `pingTool`'s list entry uses the fallback
schema, which accepts the empty object. -/
theorem listTools_reports_schemas_witness :
    ({ annots := none, description := some "pings",
       inputSchema := fallbackInputSchema, name := "ping" } : ToolListEntry) ∈
      listTools [pingTool] ∧
    (fallbackInputSchema.acceptsObject [] = true ↔ ([] : List (String × Json)) = []) := by
  have h := listTools_reports_schemas [pingTool] pingTool (by simp)
  exact ⟨h.1, h.2 []⟩

/-- Looking a prompt up by name in the session store finds the wrapped
version of the input prompt with that name. -/
theorem sessionPrompts_find (search : List String → String → List String)
    (ps : List InputPrompt) (promptName : String) :
    (sessionPrompts search ps).find? (fun q => q.name = promptName) =
      (ps.find? (fun q => q.name = promptName)).map (wrapPrompt search) := by
  induction ps with
  | nil => rfl
  | cons p ps ih =>
      by_cases h : p.name = promptName
      · simp [sessionPrompts, wrapPrompt, h]
      · simp only [sessionPrompts, List.map_cons] at ih ⊢
        rw [List.find?_cons_of_neg, List.find?_cons_of_neg, ih]
        · simp [h]
        · simp [wrapPrompt, h]

/-- C5 counterexample: prompt `p`'s argument `a` declares neither a
completer nor an enumeration, yet the completion request does not fail with
a state error — it succeeds with an empty values list, because `addPrompt`
always installs a completion wrapper. -/
theorem completePromptRef_no_support_counterexample :
    completePromptRef samplePrompts "p" "a" "x" =
      Except.ok { values := [], total := none, hasMore := none } ∧
    ∀ e, completePromptRef samplePrompts "p" "a" "x" ≠ Except.error e := by
  refine ⟨rfl, fun e h => ?_⟩
  rw [show completePromptRef samplePrompts "p" "a" "x" =
    Except.ok { values := [], total := none, hasMore := none } from rfl] at h
  exact Except.noConfusion h

/-- C5 (amended): for a completion request naming an existing prompt, the
wrapper installed by `addPrompt` answers: an argument with an explicit
completer uses it; an argument with an enumeration but no completer falls
back to the fuzzy/substring matcher and reports the matching values with
their count; an argument with neither yields an empty values list rather
than a state error (a state error occurs only for an unknown prompt
name). -/
theorem completePromptRef_dispatch (search : List String → String → List String)
    (ps : List InputPrompt) (promptName argName value : String) :
    (∀ p, ps.find? (fun q => q.name = promptName) = some p →
       (dictLookup (completersOf p.arguments) argName = none →
        dictLookup (enumsOf p.arguments) argName = none →
          completePromptRef (sessionPrompts search ps) promptName argName value =
            Except.ok { values := [] }) ∧
       (∀ vs, dictLookup (completersOf p.arguments) argName = none →
          dictLookup (enumsOf p.arguments) argName = some vs →
          (search vs value).length ≤ 100 →
          completePromptRef (sessionPrompts search ps) promptName argName value =
            Except.ok { values := search vs value,
                        total := some (search vs value).length }) ∧
       (∀ f, dictLookup (completersOf p.arguments) argName = some f →
          (f value).values.length ≤ 100 →
          completePromptRef (sessionPrompts search ps) promptName argName value =
            Except.ok (f value))) ∧
    (ps.find? (fun q => q.name = promptName) = none →
       completePromptRef (sessionPrompts search ps) promptName argName value =
         Except.error (HandlerError.state "Unknown prompt")) := by
  constructor
  · intro p hp
    have hf : (sessionPrompts search ps).find? (fun q => q.name = promptName) =
        some (wrapPrompt search p) := by
      rw [sessionPrompts_find, hp]
      rfl
    refine ⟨?_, ?_, ?_⟩
    · intro hc he
      simp [completePromptRef, hf, wrapPrompt, promptCompleteFn, hc, he, parseCompletion]
    · intro vs hc he hlen
      simp [completePromptRef, hf, wrapPrompt, promptCompleteFn, hc, he, parseCompletion, hlen]
    · intro f hc hlen
      simp [completePromptRef, hf, wrapPrompt, promptCompleteFn, hc, parseCompletion, hlen]
  · intro hnone
    have hf : (sessionPrompts search ps).find? (fun q => q.name = promptName) = none := by
      rw [sessionPrompts_find, hnone]
      rfl
    simp [completePromptRef, hf]

/-- C5 witness: against the sample store, argument `a` of prompt `p`
(no completion support) yields the empty completion, and argument `color`
of prompt `q` (enumeration `red/green/blue`, query `re`) yields the two
substring matches with count 2. -/
theorem completePromptRef_dispatch_witness :
    completePromptRef samplePrompts "p" "a" "x" = Except.ok { values := [] } ∧
    completePromptRef samplePrompts "q" "color" "re" =
      Except.ok { values := ["red", "green"], total := some 2 } := by
  have h1 := (completePromptRef_dispatch substrSearch [plainArgPrompt, enumArgPrompt]
    "p" "a" "x").1 plainArgPrompt rfl
  have h2 := (completePromptRef_dispatch substrSearch [plainArgPrompt, enumArgPrompt]
    "q" "color" "re").1 enumArgPrompt rfl
  constructor
  · exact h1.1 rfl rfl
  · have h3 := h2.2.1 ["red", "green", "blue"] rfl rfl (by decide)
    exact h3.trans (by rfl)

/-- The template read loop answers with the first matching template's load
response. -/
theorem readViaTemplates_first_match (engine : UriTemplateEngine) (uri : String) :
    ∀ (templates : List ResourceTemplate) (t : ResourceTemplate)
      (m : List (String × String)),
      firstTemplateMatch engine templates uri = some (t, m) →
      readViaTemplates engine templates uri = templateLoadResponse engine t m := by
  intro templates
  induction templates with
  | nil => intro t m h; simp [firstTemplateMatch, List.findSome?] at h
  | cons t0 ts ih =>
      intro t m h
      cases h0 : engine.fromUri t0.uriTemplate uri with
      | some m0 =>
          have he : firstTemplateMatch engine (t0 :: ts) uri = some (t0, m0) := by
            simp [firstTemplateMatch, List.findSome?, h0]
          rw [he] at h
          obtain ⟨h1, h2⟩ := Prod.mk.injEq .. ▸ Option.some.injEq .. ▸ h
          subst h1
          subst h2
          simp [readViaTemplates, h0, templateLoadResponse]
      | none =>
          have he : firstTemplateMatch engine (t0 :: ts) uri =
              firstTemplateMatch engine ts uri := by
            simp [firstTemplateMatch, List.findSome?, h0]
          rw [he] at h
          have := ih t m h
          simpa [readViaTemplates, h0] using this

/-- When no template matches, the template read loop fails with
MethodNotFound. -/
theorem readViaTemplates_no_match (engine : UriTemplateEngine) (uri : String) :
    ∀ templates : List ResourceTemplate,
      firstTemplateMatch engine templates uri = none →
      readViaTemplates engine templates uri =
        Except.error (HandlerError.mcp ErrorCode.MethodNotFound
          ("Unknown resource: " ++ uri) none) := by
  intro templates
  induction templates with
  | nil => intro h; rfl
  | cons t0 ts ih =>
      intro h
      cases h0 : engine.fromUri t0.uriTemplate uri with
      | some m0 =>
          exfalso
          have he : firstTemplateMatch engine (t0 :: ts) uri = some (t0, m0) := by
            simp [firstTemplateMatch, List.findSome?, h0]
          rw [he] at h
          exact Option.noConfusion h
      | none =>
          have he : firstTemplateMatch engine (t0 :: ts) uri =
              firstTemplateMatch engine ts uri := by
            simp [firstTemplateMatch, List.findSome?, h0]
          rw [he] at h
          simpa [readViaTemplates, h0] using ih h

/-- C6: a read-resource request whose URI hits no direct resource goes to
the template loop: the registered templates are tried in registration order
and the first whose pattern matches wins, its loader invoked with the
placeholder values extracted from the URI; if no template matches, the
request fails with MethodNotFound. -/
theorem readResource_template_dispatch (engine : UriTemplateEngine)
    (resources : List Resource) (templates : List ResourceTemplate) (uri : String)
    (hmiss : resources.find? (fun r => r.uri = uri) = none) :
    readResource engine resources templates uri =
      readViaTemplates engine templates uri ∧
    (∀ t m, firstTemplateMatch engine templates uri = some (t, m) →
       readViaTemplates engine templates uri = templateLoadResponse engine t m) ∧
    (firstTemplateMatch engine templates uri = none →
       readViaTemplates engine templates uri =
         Except.error (HandlerError.mcp ErrorCode.MethodNotFound
           ("Unknown resource: " ++ uri) none)) := by
  exact ⟨by simp [readResource, hmiss],
    fun t m h => readViaTemplates_first_match engine uri templates t m h,
    fun h => readViaTemplates_no_match engine uri templates h⟩

/-- C6 witness: reading `file:///logs/app.log` against the template
`file:///logs/{name}.log` extracts `name = app` and hands it to the loader
(which echoes it back as the text payload); a URI matching nothing fails
with MethodNotFound. -/
theorem readResource_template_dispatch_witness :
    (firstTemplateMatch simpleUriTemplates [logTemplate] "file:///logs/app.log").map
        (fun x => x.2) = some [("name", "app")] ∧
    readResource simpleUriTemplates [] [logTemplate] "file:///logs/app.log" =
      Except.ok { contents := [{ uri := "file:///logs/app.log", name := "logs",
                                 mimeType := none, text := some "app", blob := none }] } ∧
    readResource simpleUriTemplates [] [logTemplate] "file:///nope" =
      Except.error (HandlerError.mcp ErrorCode.MethodNotFound
        "Unknown resource: file:///nope" none) := by
  have h1 := readResource_template_dispatch simpleUriTemplates [] [logTemplate]
    "file:///logs/app.log" rfl
  have h2 := readResource_template_dispatch simpleUriTemplates [] [logTemplate]
    "file:///nope" rfl
  refine ⟨by rfl, ?_, ?_⟩
  · have hm := h1.2.1 logTemplate [("name", "app")] (by rfl)
    rw [h1.1, hm]
    rfl
  · have hn := h2.2.2 (by rfl)
    rw [h2.1, hn]
    rfl

/-- C7: reading a direct resource by exact URI yields a one-entry contents
list when the loader produced a single payload and an N-entry list for N
payloads; each entry takes the resource's URI, name and MIME type except
where the payload itself carries an overriding field. -/
theorem readResource_direct_contents (engine : UriTemplateEngine)
    (resources : List Resource) (templates : List ResourceTemplate)
    (uri : String) (res : Resource)
    (hfind : resources.find? (fun r => r.uri = uri) = some res) :
    (∀ r, res.load = Except.ok (ResourceLoad.one r) →
       readResource engine resources templates uri =
         Except.ok { contents := [mkDirectEntry res r] }) ∧
    (∀ rs, res.load = Except.ok (ResourceLoad.many rs) →
       readResource engine resources templates uri =
         Except.ok { contents := rs.map (mkDirectEntry res) } ∧
       (rs.map (mkDirectEntry res)).length = rs.length) ∧
    (∀ r : ResourceResult,
       (r.uri = none → (mkDirectEntry res r).uri = res.uri) ∧
       (∀ u, r.uri = some u → (mkDirectEntry res r).uri = u) ∧
       (r.name = none → (mkDirectEntry res r).name = res.name) ∧
       (∀ n, r.name = some n → (mkDirectEntry res r).name = n) ∧
       (r.mimeType = none → (mkDirectEntry res r).mimeType = res.mimeType) ∧
       (∀ mt, r.mimeType = some mt → (mkDirectEntry res r).mimeType = some mt)) := by
  refine ⟨?_, ?_, ?_⟩
  · intro r h
    simp [readResource, hfind, h]
  · intro rs h
    exact ⟨by simp [readResource, hfind, h], by simp⟩
  · intro r
    refine ⟨?_, ?_, ?_, ?_, ?_, ?_⟩
    · intro h; simp [mkDirectEntry, h]
    · intro u h; simp [mkDirectEntry, h]
    · intro h; simp [mkDirectEntry, h]
    · intro n h; simp [mkDirectEntry, h]
    · intro h; simp [mkDirectEntry, h, Option.orElse]
    · intro mt h; simp [mkDirectEntry, h, Option.orElse]

/-- C7 witness: the spec's example — a loader yielding two text payloads
for `file:///x` produces a two-entry contents list, both entries inheriting
the resource's URI and name. -/
theorem readResource_direct_contents_witness :
    readResource simpleUriTemplates [multiResource] [] "file:///x" =
      Except.ok { contents :=
        [{ uri := "file:///x", name := "x", mimeType := none,
           text := some "a", blob := none },
         { uri := "file:///x", name := "x", mimeType := none,
           text := some "b", blob := none }] } ∧
    (([{ text := some "a" }, { text := some "b" }] :
        List ResourceResult).map (mkDirectEntry multiResource)).length = 2 := by
  have h := readResource_direct_contents simpleUriTemplates [multiResource] []
    "file:///x" multiResource rfl
  have h2 := h.2.1 [{ text := some "a" }, { text := some "b" }] rfl
  exact ⟨h2.1.trans (by rfl), h2.2.trans (by rfl)⟩

/-- Exhausted polling: if every call in the budget yields no capabilities,
the loop stops at the budget with none obtained and one delay per call. -/
theorem connectPollAux_all_none {α : Type} (capAt : Nat → Option α) (b : Nat) :
    ∀ k, (∀ j, j < k + b → capAt j = none) →
      connectPollAux capAt k b = (none, k + b, k + b) := by
  induction b with
  | zero => intro k h; simp [connectPollAux]
  | succ b ih =>
      intro k h
      have hk : capAt k = none := h k (by omega)
      have h2 := ih (k + 1) (fun j hj => h j (by omega))
      rw [show connectPollAux capAt k (b + 1) = connectPollAux capAt (k + 1) b from by
        simp [connectPollAux, hk]]
      rw [h2]
      have he : k + 1 + b = k + (b + 1) := by omega
      rw [he]

/-- The polling loop never makes more calls than its remaining budget
allows. -/
theorem connectPollAux_attempts_le {α : Type} (capAt : Nat → Option α) (b : Nat) :
    ∀ k, (connectPollAux capAt k b).2.1 ≤ k + b := by
  induction b with
  | zero => intro k; simp [connectPollAux]
  | succ b ih =>
      intro k
      cases hk : capAt k with
      | some c => simp [connectPollAux, hk]
      | none =>
          have h := ih (k + 1)
          simp only [connectPollAux, hk]
          omega

/-- C8: `connect` polls `getClientCapabilities` at most 10 times with a
100ms delay after each unsuccessful call; if every attempt comes back
empty, `connect` still completes normally (the transport stays bound) with
no capabilities and only the non-fatal warning printed. -/
theorem connect_capability_polling_bounded {α : Type} (capAt : Nat → Option α)
    (hall : ∀ k, k < attemptBudget → capAt k = none) :
    connect false capAt =
      Except.ok { clientCapabilities := none, attempts := attemptBudget,
                  delays := attemptBudget, warned := true } ∧
    (∀ capAt2 : Nat → Option α, (connectPoll capAt2).2.1 ≤ attemptBudget) ∧
    attemptDelayMs = 100 := by
  refine ⟨?_, ?_, rfl⟩
  · have h := connectPollAux_all_none capAt attemptBudget 0
      (fun j hj => hall j (by omega))
    simp [connect, connectPoll, h]
  · intro capAt2
    have h := connectPollAux_attempts_le capAt2 attemptBudget 0
    simpa [connectPoll] using h

/-- C8 witness: a client that never advertises capabilities gets 10
attempts, 10 delays, a warning, and a successful connect. -/
theorem connect_capability_polling_bounded_witness :
    connect false (fun _ => (none : Option Nat)) =
      Except.ok { clientCapabilities := none, attempts := 10, delays := 10,
                  warned := true } := by
  have h := connect_capability_polling_bounded (fun _ => (none : Option Nat))
    (fun k hk => rfl)
  exact h.1

/-- C9: get-prompt for a registered prompt with every required argument
supplied runs the load function and wraps the produced string as a single
user-role text message; a missing required argument fails with
InvalidRequest; an unregistered name fails with MethodNotFound. -/
theorem getPrompt_dispatch (prompts : List InputPrompt) (name : String)
    (args : Option (List (String × String))) :
    (∀ p, prompts.find? (fun q => q.name = name) = some p →
       (p.arguments.find? (fun a => a.required && !(argHas args a.name)) = none →
          ∀ s, p.load args = Except.ok s →
            getPrompt prompts name args =
              Except.ok { description := p.description,
                          messages := [{ role := "user", content := Content.text s }] }) ∧
       (∀ a, p.arguments.find? (fun a => a.required && !(argHas args a.name)) = some a →
          getPrompt prompts name args =
            Except.error (HandlerError.mcp ErrorCode.InvalidRequest
              ("Missing required argument: " ++ a.name) none))) ∧
    (prompts.find? (fun q => q.name = name) = none →
       getPrompt prompts name args =
         Except.error (HandlerError.mcp ErrorCode.MethodNotFound
           ("Unknown prompt: " ++ name) none)) := by
  constructor
  · intro p hp
    constructor
    · intro hreq s hs
      simp [getPrompt, hp, hreq, hs]
    · intro a ha
      simp [getPrompt, hp, ha]
  · intro hn
    simp [getPrompt, hn]

/-- C9 witness: the spec's round-trip — `git-commit` with
`{changes: "x"}` answers a user message containing `x`; omitting `changes`
fails with InvalidRequest; an unknown prompt fails with MethodNotFound. -/
theorem getPrompt_dispatch_witness :
    getPrompt [commitPrompt] "git-commit" (some [("changes", "x")]) =
      Except.ok { description := some "Generate a commit message",
                  messages := [{ role := "user", content := Content.text "x" }] } ∧
    getPrompt [commitPrompt] "git-commit" (some []) =
      Except.error (HandlerError.mcp ErrorCode.InvalidRequest
        "Missing required argument: changes" none) ∧
    getPrompt [commitPrompt] "nope" none =
      Except.error (HandlerError.mcp ErrorCode.MethodNotFound
        "Unknown prompt: nope" none) := by
  have h1 := (getPrompt_dispatch [commitPrompt] "git-commit"
    (some [("changes", "x")])).1 commitPrompt rfl
  have h2 := (getPrompt_dispatch [commitPrompt] "git-commit" (some [])).1
    commitPrompt rfl
  have h3 := (getPrompt_dispatch [commitPrompt] "nope" none).2 rfl
  refine ⟨(h1.1 rfl "x" rfl).trans (by rfl), ?_, h3.trans (by rfl)⟩
  · have h4 := h2.2 { name := "changes", required := true } rfl
    exact h4.trans (by rfl)

end FastMCPModel
